import Mathlib

/-!
Verification of the `seo_audit` crawl-and-analyze core.

This file gives a shallow embedding, in Lean 4, of the parts of the
`seo_audit` Python package that the checked properties talk about:

* `seo_audit/utils.py` — URL normalization, domain comparison, validity,
  URL deduplication;
* `seo_audit/models.py` — `PageResult`, `AuditSummary.add_result`,
  `AuditConfig`;
* `seo_audit/analyzers.py` — heading-structure collection
  (`PageAnalyzer._analyze_heading_structure`), heading-hierarchy
  validation (`PageAnalyzer._validate_heading_hierarchy`) and the
  redirect resolver (`RedirectAnalyzer.analyze_redirects`);
* `seo_audit/advanced_analyzers.py` — `InternalLinkAnalyzer`
  (orphan detection and BFS link depth);
* `seo_audit/crawler.py` — the `SEOCrawler` frontier state machine;
* `seo_audit/audit_engine.py` — `SEOAuditEngine.validate_config`.

Python machine-level details are embedded as follows: Python `int` is `ℤ`
(or `ℕ` for counters that never go negative), Python `float` arithmetic on
response times is embedded as exact `ℚ` arithmetic (the means involved are
exact small rationals, so no rounding behavior is load-bearing),
`Optional[T]` is `Option T`, Python dicts used purely as counters are
total functions with default `0`, and Python sets that only ever undergo
membership-checked insertion are embedded as `Finset`/duplicate-free
lists.  Network effects (`requests.get`, robots.txt) are oracle
parameters: a fetch is a function from a URL to an optional response,
`none` standing for a raised exception.
-/

/-! ### Character/string helpers shared by the embedded functions -/

/-- ASCII lower-casing of one character, as Python `str.lower` acts on the
ASCII letters.  (The French strings produced by the analyzer contain no
upper-case accented letters, so ASCII lowering agrees with Python's
`str.lower` on every string this development manipulates.) -/
def lowerChar (c : Char) : Char :=
  if 'A' ≤ c ∧ c ≤ 'Z' then Char.ofNat (c.toNat + 32) else c

/-- Python `str.lower`, restricted to ASCII letters (see `lowerChar`). -/
def lowerStr (s : String) : String :=
  String.mk (s.toList.map lowerChar)

/-- Python `\s` whitespace class, for the characters that can occur in the
audited strings: space, tab, newline, carriage return, form feed,
vertical tab. -/
def isPyWs (c : Char) : Bool :=
  c = ' ' ∨ c = '\t' ∨ c = '\n' ∨ c = '\r' ∨ c = '\x0c' ∨ c = '\x0b'

/-- One pass of `re.sub(r'\s+', ' ', text)`: collapse each maximal run of
whitespace into a single space.  The boolean records whether the previous
character was part of a whitespace run. -/
def collapseWs : Bool → List Char → List Char
  | _, [] => []
  | prevWs, c :: rest =>
    if isPyWs c then
      if prevWs then collapseWs true rest
      else ' ' :: collapseWs true rest
    else c :: collapseWs false rest

/-- Python `str.strip()` (both ends, whitespace). -/
def stripChars (l : List Char) : List Char :=
  ((l.dropWhile isPyWs).reverse.dropWhile isPyWs).reverse

/-- Python `str.strip()` on a `String`. -/
def pyStrip (s : String) : String :=
  String.mk (stripChars s.toList)

/-- `utils.clean_text`: `re.sub(r'\s+', ' ', text).strip()`, with empty
input mapped to the empty string. -/
def clean_text (s : String) : String :=
  if s = "" then ""
  else String.mk (stripChars (collapseWs false s.toList))

/-- Split a character list at the first occurrence of `c`:
`some (before, after)` when `c` occurs, `none` otherwise. -/
def splitFirst (c : Char) : List Char → Option (List Char × List Char)
  | [] => none
  | x :: xs =>
    if x = c then some ([], xs)
    else (splitFirst c xs).map (fun p => (x :: p.1, p.2))

/-- The characters `urllib.parse` accepts inside a URL scheme
(letters, digits, `+`, `-`, `.`). -/
def isSchemeChar (c : Char) : Bool :=
  c.isAlphanum ∨ c = '+' ∨ c = '-' ∨ c = '.'

/-- `urllib.parse.urlsplit` scheme recognition: if the URL has a `:` with a
non-empty prefix before it whose first character is an ASCII letter and
whose characters are all scheme characters, the split yields
`some (lowercased scheme, rest-after-colon)`; otherwise `none` (empty
scheme). -/
def schemeSplit (url : String) : Option (String × List Char) :=
  match splitFirst ':' url.toList with
  | none => none
  | some (before, after) =>
    match before with
    | [] => none
    | c0 :: _ =>
      if c0.isAlpha ∧ before.all isSchemeChar then
        some (String.mk (before.map lowerChar), after)
      else none

/-- `urllib.parse.urlparse(url).scheme` (empty string when absent). -/
def schemeOf (url : String) : String :=
  match schemeSplit url with
  | some (sch, _) => sch
  | none => ""

/-- `urllib.parse.urlparse(url).netloc`: present exactly when the text
after the scheme (or the whole URL, with no scheme) starts with `//`,
extending up to the next `/`, `?` or `#`. -/
def netlocOf (url : String) : String :=
  let rest := match schemeSplit url with
    | some (_, after) => after
    | none => url.toList
  match rest with
  | '/' :: '/' :: tail =>
    String.mk (tail.takeWhile (fun c => ¬ (c = '/' ∨ c = '?' ∨ c = '#')))
  | _ => ""

/-- `urllib.parse.urldefrag(url)[0]`: everything before the first `#`
(the whole URL when there is no fragment). -/
def defrag (url : String) : String :=
  match splitFirst '#' url.toList with
  | some (before, _) => String.mk before
  | none => url

/-- `utils.normalize_url`: return falsy input unchanged, otherwise strip
the fragment and prepend `https://` when the URL parses with no scheme. -/
def normalize_url (url : String) : String :=
  if url = "" then url
  else
    let u := defrag url
    match schemeSplit u with
    | some _ => u
    | none => "https://" ++ u

/-- `utils.is_same_domain`: compare the lower-cased netlocs. -/
def is_same_domain (url1 url2 : String) : Bool :=
  lowerStr (netlocOf url1) = lowerStr (netlocOf url2)

/-- `utils.is_valid_url`: the URL must parse with a non-empty scheme and a
non-empty netloc. -/
def is_valid_url (url : String) : Bool :=
  ¬ (schemeOf url = "") ∧ ¬ (netlocOf url = "")

/-! ### URL deduplication (`utils.deduplicate_urls`) -/

/-- The loop body of `utils.deduplicate_urls`: walk the input keeping a
`seen` set (embedded as the list of values already emitted); a URL is
emitted when its normalization is non-empty and not yet seen. -/
def dedupGo (seen : List String) : List String → List String
  | [] => []
  | u :: rest =>
    let n := normalize_url u
    if n ≠ "" ∧ n ∉ seen then n :: dedupGo (n :: seen) rest
    else dedupGo seen rest

/-- `utils.deduplicate_urls`. -/
def deduplicate_urls (urls : List String) : List String :=
  dedupGo [] urls

/-- Modelled from the spec words for §4.1 deduplication, to be compared
with `deduplicate_urls`: normalize each URL, then keep the first-seen
occurrence of each (non-empty) normalized value in order. -/
def dedupSpec : List String → List String
  | [] => []
  | u :: rest =>
    let n := normalize_url u
    if n = "" then dedupSpec rest
    else n :: (dedupSpec rest).filter (fun m => m ≠ n)

/-! ### Data model (`models.py`) -/

/-- `models.HeadingItem`: a heading element with its level (1–6), text and
position of appearance. -/
structure HeadingItem where
  level : ℕ
  text : String
  position : ℕ
deriving DecidableEq, Repr

/-- `models.PageResult`, restricted to the fields that the operations
verified here read (`AuditSummary.add_result` reads `status`,
`response_ms` and `issues`; the remaining fields of the Python dataclass
are write-only for those operations and are omitted). -/
structure PageResult where
  url : String
  status : Option ℤ := none
  response_ms : Option ℤ := none
  issues : List String := []
deriving DecidableEq, Repr

/-- `models.AuditSummary`.  The two Python dicts are embedded as total
counting functions with default `0` (`dict.get(k, 0)` semantics); the
running average is kept in exact rational arithmetic. -/
structure AuditSummary where
  total_pages : ℕ := 0
  pages_with_issues : ℕ := 0
  avg_response_time : ℚ := 0
  total_issues : ℕ := 0
  common_issues : String → ℕ := fun _ => 0
  status_codes : ℤ → ℕ := fun _ => 0

/-- Python truthiness of an `Optional[int]`: `None` and `0` are falsy. -/
def truthyInt : Option ℤ → Bool
  | none => false
  | some v => v ≠ 0

/-- `models.AuditSummary.add_result`, line by line: increment
`total_pages`; when the issue list is truthy (non-empty) bump
`pages_with_issues` and `total_issues`; when `response_ms` is truthy
(non-`None`, non-zero) recompute the running average dividing by the
already-incremented `total_pages`; when `status` is truthy count it in
`status_codes`; finally count every issue string in `common_issues`. -/
def add_result (s : AuditSummary) (r : PageResult) : AuditSummary :=
  let s1 := { s with total_pages := s.total_pages + 1 }
  let s2 :=
    if r.issues ≠ [] then
      { s1 with pages_with_issues := s1.pages_with_issues + 1,
                total_issues := s1.total_issues + r.issues.length }
    else s1
  let s3 :=
    if truthyInt r.response_ms then
      { s2 with avg_response_time :=
          (s2.avg_response_time * ((s2.total_pages : ℚ) - 1)
            + ((r.response_ms.getD 0 : ℤ) : ℚ)) / (s2.total_pages : ℚ) }
    else s2
  let s4 :=
    if truthyInt r.status then
      { s3 with status_codes := fun k =>
          if k = r.status.getD 0 then s3.status_codes k + 1 else s3.status_codes k }
    else s3
  { s4 with common_issues := fun k => s4.common_issues k + r.issues.count k }

/-! ### Configuration validation (`audit_engine.py`) -/

/-- `models.AuditConfig`, restricted to the fields `validate_config`
reads. -/
structure AuditConfig where
  domain : String
  max_pages : ℤ := 100
  rate_limit : ℚ := 1
deriving DecidableEq, Repr

/-- `audit_engine.SEOAuditEngine.validate_config`: the four early-return
rejections, in source order (empty domain, missing `http(s)://` scheme
marker, non-positive page budget, negative rate limit). -/
def validate_config (c : AuditConfig) : Bool :=
  if c.domain = "" then false
  else if ¬ (c.domain.startsWith "http://" ∨ c.domain.startsWith "https://") then false
  else if c.max_pages ≤ 0 then false
  else if c.rate_limit < 0 then false
  else true

/-! ### Heading structure analysis (`analyzers.PageAnalyzer`) -/

/-- Abstract HTML document, for the heading analysis: the sequence of
heading elements `(level, raw text)` in document order.  `tree.css('hN')`
returns exactly the elements of level `N` of this sequence, in document
order. -/
def cssHeadings (doc : List (ℕ × String)) (level : ℕ) : List (ℕ × String) :=
  doc.filter (fun p => p.1 = level)

/-- `PageAnalyzer._analyze_heading_structure`, collection phase: for each
level 1..6 in turn, take that level's elements in document order, clean
their text, drop the empty ones, and truncate the text to 100 characters
(`text[:100]`).  Note the outer loop runs over levels, so the collected
list is grouped by level, not by document position. -/
def collectHeadings (doc : List (ℕ × String)) : List (ℕ × String) :=
  (List.range 6).foldl
    (fun acc i =>
      acc ++ (cssHeadings doc (i + 1)).filterMap
        (fun p =>
          let t := pyStrip (clean_text p.2)
          if t ≠ "" then some (p.1, String.mk (t.toList.take 100)) else none))
    []

/-- `PageAnalyzer._analyze_heading_structure`: build `HeadingItem`s with
sequential positions (`enumerate`) over the collected list. -/
def analyze_heading_structure (doc : List (ℕ × String)) : List HeadingItem :=
  (collectHeadings doc).enum.map (fun p => ⟨p.2.1, p.2.2, p.1⟩)

/-- The level-skip issue string of
`PageAnalyzer._validate_heading_hierarchy`, naming the missing
intermediate level `prev_level + 1`. -/
def skipMsg (prevLevel currentLevel : ℕ) : String :=
  "Saut de niveau de titre: H" ++ toString prevLevel ++ " → H"
    ++ toString currentLevel ++ " (H" ++ toString (prevLevel + 1) ++ " manquant)"

/-- The level-skip detection loop of
`PageAnalyzer._validate_heading_hierarchy`: carry `prev_level`
(initialized by the caller to 0) across the heading list; a skip issue is
recorded when `prev_level > 0` and the current level exceeds
`prev_level + 1`. -/
def skipIssuesGo (prevLevel : ℕ) : List HeadingItem → List String
  | [] => []
  | h :: rest =>
    (if prevLevel > 0 ∧ h.level > prevLevel + 1 then [skipMsg prevLevel h.level]
    else []) ++ skipIssuesGo h.level rest

/-- Substring containment on character lists (Python `in` on `str`). -/
def containsSub (needle hay : List Char) : Bool :=
  match hay with
  | [] => needle = []
  | _ :: tail => needle.isPrefixOf hay ∨ containsSub needle tail

/-- The keyword gate at the end of
`PageAnalyzer._validate_heading_hierarchy`: an issue is promoted when its
lower-cased text contains one of the literal keywords
`no h1`, `multiple h1`, `skip`, `no headings`. -/
def keywordGate (issue : String) : Bool :=
  (["no h1", "multiple h1", "skip", "no headings"]).any
    (fun kw => containsSub kw.toList (lowerStr issue).toList)

/-- `PageAnalyzer._validate_heading_hierarchy`, as a pure function from
the heading list to the pair (hierarchy-issue list, strings appended to
the page's general issue list).  With no headings, the fixed issue is
appended to both lists directly; otherwise the issues are accumulated in
source order (first-heading level, missing/multiple H1, level skips,
empty headings, over-long headings) and only gate-matching ones are
promoted, prefixed with `Structure des titres: `. -/
def validate_heading_hierarchy (headings : List HeadingItem) :
    List String × List String :=
  if headings = [] then
    (["Aucun titre trouvé"], ["Aucun titre trouvé"])
  else
    let firstIssues :=
      match headings with
      | h :: _ =>
        if h.level ≠ 1 then
          ["Le premier titre est H" ++ toString h.level ++ ", devrait être H1"]
        else []
      | [] => []
    let h1s := headings.filter (fun h => h.level = 1)
    let h1Issues :=
      if h1s = [] then ["Aucun titre H1 trouvé"]
      else if h1s.length > 1 then
        ["Plusieurs titres H1 trouvés (" ++ toString h1s.length ++ ")"]
      else []
    let skips := skipIssuesGo 0 headings
    let empties := headings.filter (fun h => pyStrip h.text = "")
    let emptyIssues :=
      if empties ≠ [] then
        [toString empties.length ++ " titres vides trouvés"]
      else []
    let longs := headings.filter (fun h => h.text.length > 70)
    let longIssues :=
      if longs ≠ [] then
        [toString longs.length ++ " titres trop longs (>70 caractères)"]
      else []
    let issues := firstIssues ++ h1Issues ++ skips ++ emptyIssues ++ longIssues
    (issues,
      (issues.filter keywordGate).map (fun i => "Structure des titres: " ++ i))

/-! ### Redirect resolution (`analyzers.RedirectAnalyzer`) -/

/-- An HTTP response as far as `analyze_redirects` inspects it: the status
code and the optional `Location` header. -/
structure RedirectResponse where
  status : ℤ
  location : Option String
deriving DecidableEq, Repr

/-- A fetch oracle: `requests.Session.get(url, allow_redirects=False)`;
`none` stands for a raised request exception. -/
def FetchFn : Type := String → Option RedirectResponse

/-- `urllib.parse.urljoin(base, url)` restricted to the reference shapes
the redirect resolver meets: an absolute `url` (with scheme) is returned
as is; a network-path reference `//…` takes the base's scheme; a
root-relative path replaces the base's path; any other relative reference
is appended to the base's directory.  (Dot-segment normalization is not
modelled; no verified property depends on the relative branches.) -/
def pyUrljoin (base url : String) : String :=
  if (schemeSplit url).isSome then url
  else if url.startsWith "//" then schemeOf base ++ ":" ++ url
  else
    let root := schemeOf base ++ "://" ++ netlocOf base
    if url.startsWith "/" then root ++ url
    else
      let basePath := (base.toList.reverse.dropWhile (fun c => c ≠ '/')).reverse
      String.mk basePath ++ url

/-- The statuses the manual redirect loop follows. -/
def redirectStatuses : List ℤ := [301, 302, 303, 307, 308]

/-- The `while` loop of `RedirectAnalyzer.analyze_redirects`.  The loop
guard is `status ∈ {301,302,303,307,308}` and `len(chain) < 10`; each
iteration resolves `Location` against the current URL, stops on a missing
header, on a loop (resolved target already in the chain, which is not
re-appended) or on a failed re-fetch (the target is appended first), and
otherwise appends and re-fetches.  `fuel` only bounds the recursion; the
chain-length guard makes 11 units sufficient for it never to run out. -/
def redirectGo (fetch : FetchFn) :
    ℕ → RedirectResponse → String → List String → List String →
    List String × List String
  | 0, _, _, chain, issues => (chain, issues)
  | fuel + 1, resp, currentUrl, chain, issues =>
    if resp.status ∈ redirectStatuses ∧ chain.length < 10 then
      match resp.location with
      | none => (chain, issues ++ ["Redirection sans en-tête Location"])
      | some location =>
        let nextUrl := pyUrljoin currentUrl location
        if nextUrl ∈ chain then
          (chain, issues ++ ["Boucle de redirection détectée"])
        else
          match fetch nextUrl with
          | none =>
            (chain ++ [nextUrl], issues ++ ["Chaîne de redirection interrompue"])
          | some resp2 =>
            redirectGo fetch fuel resp2 nextUrl (chain ++ [nextUrl]) issues
    else (chain, issues)

/-- `RedirectAnalyzer.analyze_redirects`: initial non-following fetch
(an exception there is caught by the enclosing `try`, yielding an empty
chain and a single error issue), then the manual chain loop, then the
post-hoc checks: a chain longer than 3 entries and mixed `http`/`https`
schemes across the chain, both only when a redirect actually happened. -/
def analyze_redirects (fetch : FetchFn) (url : String) :
    List String × List String :=
  match fetch url with
  | none => ([], ["Erreur d\x27analyse des redirections"])
  | some resp =>
    let (chain, issues) := redirectGo fetch 11 resp url [url] []
    let issues :=
      if chain.length > 1 then
        let issues :=
          if chain.length > 3 then
            issues ++ ["Chaîne de redirection longue ("
              ++ toString chain.length ++ " étapes)"]
          else issues
        if ((chain.map schemeOf).dedup).length > 1 then
          issues ++ ["HTTP/HTTPS mélangé dans la chaîne de redirection"]
        else issues
      else issues
    (chain, issues)

/-! ### Internal link graph (`advanced_analyzers.InternalLinkAnalyzer`) -/

/-- Insert into a Python `set` embedded as a duplicate-free list
(append only when absent, so iteration order is insertion order). -/
def setInsert (l : List String) (x : String) : List String :=
  if x ∈ l then l else l ++ [x]

/-- Update one adjacency set of a `defaultdict(set)` embedded as a total
function with default empty. -/
def adjInsert (g : String → List String) (k v : String) :
    String → List String :=
  fun u => if u = k then setInsert (g k) v else g u

/-- `InternalLinkAnalyzer`'s state: forward and reverse adjacency
(`defaultdict(set)`, default empty) and the set of all URLs seen. -/
structure InternalLinkAnalyzer where
  link_graph : String → List String := fun _ => []
  reverse_link_graph : String → List String := fun _ => []
  all_urls : List String := []

/-- `InternalLinkAnalyzer.add_page_links`: record the page URL, then for
each outbound link whose normalization is truthy and on the page's
domain, add the forward and reverse edges and record the target. -/
def add_page_links (a : InternalLinkAnalyzer) (pageUrl : String)
    (outboundLinks : List String) : InternalLinkAnalyzer :=
  let a := { a with all_urls := setInsert a.all_urls pageUrl }
  outboundLinks.foldl
    (fun a link =>
      let n := normalize_url link
      if n ≠ "" ∧ is_same_domain n pageUrl then
        { link_graph := adjInsert a.link_graph pageUrl n,
          reverse_link_graph := adjInsert a.reverse_link_graph n pageUrl,
          all_urls := setInsert a.all_urls n }
      else a)
    a

/-- `InternalLinkAnalyzer.find_orphaned_pages`: the sitemap URLs whose
reverse adjacency is empty (`url not in reverse_link_graph or
len(...) == 0` both mean an empty adjacency set in this embedding). -/
def find_orphaned_pages (a : InternalLinkAnalyzer)
    (sitemapUrls : List String) : List String :=
  sitemapUrls.filter (fun url => a.reverse_link_graph url = [])

/-- Ordered-dict lookup for the BFS depth map. -/
def depthLookup (depths : List (String × ℕ)) (u : String) : Option ℕ :=
  (depths.find? (fun p => p.1 = u)).map Prod.snd

/-- One BFS expansion step of `find_link_depth`: walk the current node's
adjacency, inserting `current_depth + 1` for each target not yet in the
depth map and collecting the newly discovered nodes in order. -/
def bfsExpand (depths : List (String × ℕ)) (d : ℕ) :
    List String → List (String × ℕ) × List String
  | [] => (depths, [])
  | v :: rest =>
    if (depthLookup depths v).isSome then bfsExpand depths d rest
    else
      let (depths2, fresh) := bfsExpand (depths ++ [(v, d + 1)]) d rest
      (depths2, v :: fresh)

/-- The BFS `while queue` loop of `InternalLinkAnalyzer.find_link_depth`.
Every dequeued node is in the depth map (the lookup default `0` is never
used); `fuel` bounds the iterations — each enqueued node enters the depth
map exactly once, so `all_urls.length + 1` units suffice for every graph
built through `add_page_links`. -/
def bfsGo (g : String → List String) :
    ℕ → List String → List (String × ℕ) → List (String × ℕ)
  | 0, _, depths => depths
  | _ + 1, [], depths => depths
  | fuel + 1, u :: queue, depths =>
    let d := (depthLookup depths u).getD 0
    let (depths2, fresh) := bfsExpand depths d (g u)
    bfsGo g fuel (queue ++ fresh) depths2

/-- `InternalLinkAnalyzer.find_link_depth`: BFS from `start_url` with
`depths = {start_url: 0}` and the start URL queued. -/
def find_link_depth (a : InternalLinkAnalyzer) (startUrl : String) :
    List (String × ℕ) :=
  bfsGo a.link_graph (a.all_urls.length + 1) [startUrl] [(startUrl, 0)]

/-! ### Crawl scheduler (`crawler.SEOCrawler`) -/

/-- The crawl frontier state: the `discovered` and `crawled` sets and the
FIFO queue of `SEOCrawler`. -/
structure CrawlerState where
  discovered : Finset String
  crawled : Finset String
  queue : List String

/-- `SEOCrawler._add_url_to_queue`: no-op unless the URL is undiscovered,
valid, and allowed by robots (the robots oracle `allowed` abstracts the
network-loaded policy); otherwise mark discovered and push. -/
def add_url_to_queue (allowed : String → Bool) (st : CrawlerState)
    (url : String) : CrawlerState :=
  if url ∉ st.discovered ∧ is_valid_url url then
    if allowed url then
      { st with discovered := insert url st.discovered,
                queue := st.queue ++ [url] }
    else st
  else st

/-- `SEOCrawler.get_next_url`: `None` when the queue is empty or the
crawled set has reached the page budget, else pop-front. -/
def get_next_url (maxPages : ℕ) (st : CrawlerState) :
    Option (String × CrawlerState) :=
  if st.queue = [] ∨ maxPages ≤ st.crawled.card then none
  else
    match st.queue with
    | [] => none
    | u :: rest => some (u, { st with queue := rest })

/-- The `for page_url in page_urls` loop of
`SEOCrawler.discover_more_urls`: enqueue while the discovered set is
under budget, `break` once it reaches it. -/
def discoverGo (allowed : String → Bool) (maxPages : ℕ) :
    CrawlerState → List String → CrawlerState
  | st, [] => st
  | st, u :: rest =>
    if st.discovered.card < maxPages then
      discoverGo allowed maxPages (add_url_to_queue allowed st u) rest
    else st

/-- `SEOCrawler.discover_more_urls`: skip when already at the discovery
budget, else run page discovery (`links` abstracts
`URLDiscovery.discover_from_page`) and enqueue under the budget. -/
def discover_more_urls (allowed : String → Bool)
    (links : String → List String) (maxPages : ℕ) (st : CrawlerState)
    (url : String) : CrawlerState :=
  if maxPages ≤ st.discovered.card then st
  else discoverGo allowed maxPages st (links url)

/-- The `while True` loop of `SEOCrawler.crawl_urls`, returning the list
of yielded URLs and the final state: dequeue (ending on `None`), yield,
mark crawled, and discover more URLs when still under budget.  `fuel`
bounds the recursion of the unbounded `while`; the budget theorem below
holds for every fuel. -/
def crawl_urls (allowed : String → Bool) (links : String → List String)
    (maxPages : ℕ) : ℕ → CrawlerState → List String × CrawlerState
  | 0, st => ([], st)
  | fuel + 1, st =>
    match get_next_url maxPages st with
    | none => ([], st)
    | some (url, st1) =>
      let st2 := { st1 with crawled := insert url st1.crawled }
      let st3 :=
        if st2.crawled.card < maxPages then
          discover_more_urls allowed links maxPages st2 url
        else st2
      let (rest, stF) := crawl_urls allowed links maxPages fuel st3
      (url :: rest, stF)

/-- The scheduler invariant maintained by `SEOCrawler`: the queue is
duplicate-free, queued and crawled URLs were discovered, and no queued
URL was already crawled. -/
def CrawlInv (st : CrawlerState) : Prop :=
  st.queue.Nodup
  ∧ (∀ u ∈ st.queue, u ∈ st.discovered)
  ∧ (∀ u ∈ st.crawled, u ∈ st.discovered)
  ∧ (∀ u ∈ st.queue, u ∉ st.crawled)

/-! ### Specification-side definitions and concrete fixtures -/

/-- Modelled from the spec words for the level-skip state machine, to be
compared with `skipIssuesGo`: pair each heading's level with the previous
one (`prev_level` starting at 0) and keep the pairs where the previous
level is positive and the current level exceeds it by more than one. -/
def skipSpecPairs (headings : List HeadingItem) : List (ℕ × ℕ) :=
  ((0 :: headings.map (fun h => h.level)).zip
    (headings.map (fun h => h.level))).filter
    (fun p => 0 < p.1 ∧ p.1 + 1 < p.2)

/-- The C2 scenario's homepage. -/
def urlHome : String := "https://x.com/"

/-- The C2 scenario's page `p1`. -/
def urlP1 : String := "https://x.com/p1"

/-- The C2 scenario's page `p2`. -/
def urlP2 : String := "https://x.com/p2"

/-- The C2 scenario's page `p3` (in the sitemap, never linked). -/
def urlP3 : String := "https://x.com/p3"

/-- The link analyzer after recording exactly the forward edges
`home → p1` and `p1 → p2` through `add_page_links`. -/
def linkAnalyzerExample : InternalLinkAnalyzer :=
  add_page_links (add_page_links {} urlHome [urlP1]) urlP1 [urlP2]

/-- A fetch oracle realizing the redirect cycle `A → B → A`:
`A` answers 301 to `B`, `B` answers 302 back to `A`, anything else is a
plain 200. -/
def fetchLoopAB : FetchFn := fun u =>
  if u = "https://x.com/a" then some ⟨301, some "https://x.com/b"⟩
  else if u = "https://x.com/b" then some ⟨302, some "https://x.com/a"⟩
  else some ⟨200, none⟩

/-- The three-record latency sequence 500/300/200 of the `AuditSummary`
test property (first record carrying one issue). -/
def latencyRecords : List PageResult :=
  [{ url := "https://x.com/1", status := some 200, response_ms := some 500,
     issues := ["Titre manquant"] },
   { url := "https://x.com/2", status := some 200, response_ms := some 300 },
   { url := "https://x.com/3", status := some 200, response_ms := some 200 }]

/-- A latency sequence with a null (`None`) latency in the middle:
`add_result` divides by `total_pages`, which also counts the null-latency
record. -/
def mixedLatencyRecords : List PageResult :=
  [{ url := "https://x.com/1", status := some 200, response_ms := some 500 },
   { url := "https://x.com/2", status := none, response_ms := none },
   { url := "https://x.com/3", status := some 200, response_ms := some 300 }]

/-! ### Theorems -/

/-- C9: `validate_config` accepts a configuration exactly when the domain
is non-empty and starts with `http://` or `https://`, the page budget is
strictly positive, and the rate limit is non-negative; every other
configuration is rejected (the function returns false, and the engine's
callers abort before crawling). -/
theorem validate_config_iff (c : AuditConfig) :
    validate_config c = true ↔
      (c.domain ≠ ""
        ∧ (c.domain.startsWith "http://" = true
            ∨ c.domain.startsWith "https://" = true)
        ∧ 0 < c.max_pages ∧ 0 ≤ c.rate_limit) := by
  unfold validate_config
  split_ifs with h1 h2 h3 h4 <;> simp_all

set_option maxRecDepth 4000 in
/-- C3, counterexample: on a document whose headings appear in the order
H3 then H1, `_analyze_heading_structure` returns `[H1, H3]` — grouped by
level, not in document order — so the claimed output `[H3, H1]` with
positions 0 and 1 is refuted (positions are dense, but over the
level-grouped order). -/
theorem heading_order_counterexample :
    analyze_heading_structure [(3, "B"), (1, "A")] =
      [⟨1, "A", 0⟩, ⟨3, "B", 1⟩]
    ∧ analyze_heading_structure [(3, "B"), (1, "A")] ≠ [⟨3, "B", 0⟩, ⟨1, "A", 1⟩] := by
  constructor <;> decide

set_option maxRecDepth 4000 in
/-- C4, counterexample and confirmed part: a page whose headings are
`[H1, H3]` gets the level-skip issue in its hierarchy-issue list but
nothing is promoted to the general issue list (the English keyword gate
never matches the French issue text), while a page with no headings does
get `Aucun titre trouvé` in both lists (that append bypasses the gate). -/
theorem heading_promotion_counterexample :
    validate_heading_hierarchy [⟨1, "Introduction", 0⟩, ⟨3, "Details", 1⟩]
      = (["Saut de niveau de titre: H1 → H3 (H2 manquant)"], [])
    ∧ validate_heading_hierarchy [] = (["Aucun titre trouvé"], ["Aucun titre trouvé"]) := by
  constructor <;> decide

/-- C10: a record whose `response_ms` is exactly 0 leaves the running
average untouched while still incrementing `total_pages` (Python
truthiness treats 0 like `None`), and a status of 0 is never counted in
`status_codes`. -/
theorem add_result_zero_values (s : AuditSummary) (r : PageResult) :
    (r.response_ms = some 0 →
        (add_result s r).avg_response_time = s.avg_response_time
        ∧ (add_result s r).total_pages = s.total_pages + 1)
    ∧ (r.status = some 0 → (add_result s r).status_codes = s.status_codes) := by
  constructor <;> intro h <;> simp only [add_result, h, truthyInt] <;>
    split_ifs <;> simp_all

/-- Witness for C10 at the concrete record with latency 0 and status 0. -/
theorem add_result_zero_values_witness :
    (add_result {} { url := "https://x.com/z", status := some 0,
                     response_ms := some 0 }).avg_response_time
        = ({} : AuditSummary).avg_response_time
    ∧ (add_result {} { url := "https://x.com/z", status := some 0,
                       response_ms := some 0 }).total_pages
        = ({} : AuditSummary).total_pages + 1
    ∧ (add_result {} { url := "https://x.com/z", status := some 0,
                       response_ms := some 0 }).status_codes
        = ({} : AuditSummary).status_codes :=
  ⟨((add_result_zero_values {} _).1 rfl).1,
   ((add_result_zero_values {} _).1 rfl).2,
   (add_result_zero_values {} _).2 rfl⟩

/-- The deduplication loop with accumulated `seen` set computes the
first-seen filtering of the specification-side `dedupSpec`. -/
theorem dedupGo_eq_filter (l : List String) :
    ∀ seen, dedupGo seen l = (dedupSpec l).filter (fun m => decide (m ∉ seen)) := by
  induction l with
  | nil => intro seen; simp [dedupGo, dedupSpec]
  | cons u rest ih =>
    intro seen
    simp only [dedupGo, dedupSpec]
    by_cases hn : normalize_url u = ""
    · rw [if_neg (by simp [hn]), if_pos hn]
      exact ih seen
    · by_cases hs : normalize_url u ∈ seen
      · rw [if_neg (fun hc => hc.2 hs), if_neg hn, List.filter_cons,
          if_neg (by simp [hs]), ih seen, List.filter_filter]
        exact List.filter_congr (fun m _ => by
          by_cases hm : m = normalize_url u
          · subst hm; simp [hs]
          · simp [hm])
      · rw [if_pos ⟨hn, hs⟩, if_neg hn, List.filter_cons, if_pos (by simp [hs])]
        congr 1
        rw [ih (normalize_url u :: seen), List.filter_filter]
        exact List.filter_congr (fun m _ => by
          by_cases hm : m = normalize_url u
          · subst hm; simp
          · simp [hm, List.mem_cons])

/-- C6, amended: `deduplicate_urls` normalizes each URL and keeps the
first occurrence of each non-empty normalized value in first-seen order
(`dedupSpec`); on the four-URL example the three distinct normalized
values survive — the trailing-slash variant is **not** collapsed with the
bare domain, since `normalize_url` only strips fragments and adds a
scheme. -/
theorem deduplicate_urls_first_seen :
    (∀ urls, deduplicate_urls urls = dedupSpec urls)
    ∧ deduplicate_urls
        ["https://x.com", "https://x.com/", "https://x.com#f", "https://x.com/p"]
      = ["https://x.com", "https://x.com/", "https://x.com/p"] := by
  constructor
  · intro urls
    rw [deduplicate_urls, dedupGo_eq_filter]
    simp
  · decide

set_option maxRecDepth 4000 in
/-- C6, counterexample: the example list yields 3 distinct normalized
entries, not the claimed 2. -/
theorem dedup_example_counterexample :
    (deduplicate_urls
        ["https://x.com", "https://x.com/", "https://x.com#f", "https://x.com/p"]).length = 3
    ∧ (3 : ℕ) ≠ 2 := by
  constructor <;> decide

set_option maxRecDepth 8000 in
/-- C2, counterexample: with forward edges `home → p1`, `p1 → p2` and
sitemap `{home, p1, p2, p3}`, `find_orphaned_pages` returns `{home, p3}`:
the homepage has no inbound edge either, so the claimed result `{p3}` is
refuted. -/
theorem orphan_example_counterexample :
    find_orphaned_pages linkAnalyzerExample [urlHome, urlP1, urlP2, urlP3]
      = [urlHome, urlP3]
    ∧ urlHome ≠ urlP3 := by
  constructor <;> decide

set_option maxRecDepth 8000 in
/-- C2, amended: on the same graph, orphan analysis returns exactly
`{home, p3}`, and BFS from `home` yields depths
`{home: 0, p1: 1, p2: 2}` with `p3` absent from the depth map. -/
theorem link_graph_example_analysis :
    find_orphaned_pages linkAnalyzerExample [urlHome, urlP1, urlP2, urlP3]
      = [urlHome, urlP3]
    ∧ find_link_depth linkAnalyzerExample urlHome
      = [(urlHome, 0), (urlP1, 1), (urlP2, 2)]
    ∧ depthLookup (find_link_depth linkAnalyzerExample urlHome) urlP3 = none := by
  refine ⟨by decide, by decide, by decide⟩

/-- The level-skip loop, for any initial `prev_level`, records exactly
the (previous, current) level pairs with a positive previous level and a
jump of more than one, in order. -/
theorem skipIssuesGo_eq (hs : List HeadingItem) : ∀ prev,
    skipIssuesGo prev hs =
      (((prev :: hs.map (fun h => h.level)).zip (hs.map (fun h => h.level))).filter
        (fun p => 0 < p.1 ∧ p.1 + 1 < p.2)).map (fun p => skipMsg p.1 p.2) := by
  induction hs with
  | nil => intro prev; simp [skipIssuesGo]
  | cons h rest ih =>
    intro prev
    simp only [skipIssuesGo, List.map_cons, List.zip_cons_cons, List.filter_cons]
    by_cases hc : 0 < prev ∧ prev + 1 < h.level
    · rw [if_pos ⟨hc.1, hc.2⟩, if_pos (by simpa using hc)]
      simp [ih h.level]
    · rw [if_neg (by exact fun hk => hc ⟨hk.1, hk.2⟩), if_neg (by simpa using hc)]
      simp [ih h.level]

/-- C8: with `prev_level` initialized to 0, a level-skip issue naming
the missing intermediate level is recorded exactly for the headings where
the previous level is positive and the current level exceeds it by more
than one (`skipSpecPairs`); `[H1, H3]` yields exactly the issue naming
H2, and `[H1, H2, H3]` yields none. -/
theorem level_skip_exactly (hs : List HeadingItem) :
    skipIssuesGo 0 hs = (skipSpecPairs hs).map (fun p => skipMsg p.1 p.2)
    ∧ skipIssuesGo 0 [⟨1, "A", 0⟩, ⟨3, "B", 1⟩] = [skipMsg 1 3]
    ∧ skipMsg 1 3 = "Saut de niveau de titre: H1 → H3 (H2 manquant)"
    ∧ skipIssuesGo 0 [⟨1, "A", 0⟩, ⟨2, "B", 1⟩, ⟨3, "C", 2⟩] = [] := by
  refine ⟨?_, by decide, by decide, by decide⟩
  rw [skipSpecPairs, skipIssuesGo_eq]

/-- For any fetch oracle, the manual redirect loop keeps the chain
duplicate-free and never lets it exceed the hard cap: upon return the
chain is `Nodup` and its length is at most `max (initial length) 10`. -/
theorem redirectGo_chain_sound (fetch : FetchFn) : ∀ (fuel : ℕ) (resp : RedirectResponse)
    (url : String) (chain issues : List String), chain.Nodup →
    ((redirectGo fetch fuel resp url chain issues).1.Nodup
      ∧ (redirectGo fetch fuel resp url chain issues).1.length ≤ max chain.length 10) := by
  intro fuel
  induction fuel with
  | zero =>
    intro resp url chain issues h
    exact ⟨h, le_max_left _ _⟩
  | succ n ih =>
    intro resp url chain issues h
    simp only [redirectGo]
    by_cases hg : resp.status ∈ redirectStatuses ∧ chain.length < 10
    · rw [if_pos hg]
      cases hloc : resp.location with
      | none => exact ⟨h, le_max_left _ _⟩
      | some location =>
        dsimp only
        by_cases hin : pyUrljoin url location ∈ chain
        · rw [if_pos hin]
          exact ⟨h, le_max_left _ _⟩
        · rw [if_neg hin]
          have hnodup : (chain ++ [pyUrljoin url location]).Nodup := by
            simp [List.nodup_append, h, hin]
          cases hfetch : fetch (pyUrljoin url location) with
          | none =>
            refine ⟨hnodup, ?_⟩
            simp only [List.length_append, List.length_singleton]
            exact le_max_of_le_right (by omega)
          | some resp2 =>
            have := ih resp2 (pyUrljoin url location)
              (chain ++ [pyUrljoin url location]) issues hnodup
            refine ⟨this.1, le_trans this.2 ?_⟩
            simp only [List.length_append, List.length_singleton]
            have h10 : chain.length + 1 ≤ 10 := by omega
            rw [max_eq_right h10]
            exact le_max_right _ _
    · rw [if_neg hg]
      exact ⟨h, le_max_left _ _⟩

set_option maxRecDepth 8000 in
/-- C7: for every fetch behavior the redirect chain returned by
`analyze_redirects` is duplicate-free (a repeated target is never
re-added) and holds at most 10 entries; on the concrete cycle
`A -> B -> A` the resolution stops at the repeat with the redirect-loop
issue and chain `[A, B]`. -/
theorem analyze_redirects_loop_safe :
    (∀ (fetch : FetchFn) (url : String),
        (analyze_redirects fetch url).1.Nodup
        ∧ (analyze_redirects fetch url).1.length ≤ 10)
    ∧ analyze_redirects fetchLoopAB "https://x.com/a"
      = (["https://x.com/a", "https://x.com/b"], ["Boucle de redirection détectée"]) := by
  constructor
  · intro fetch url
    unfold analyze_redirects
    cases hf : fetch url with
    | none => simp
    | some resp =>
      dsimp only
      have h := redirectGo_chain_sound fetch 11 resp url [url] [] (by simp)
      rcases hp : redirectGo fetch 11 resp url [url] [] with ⟨c, i⟩
      rw [hp] at h
      simpa using h
  · decide

/-- `add_result` always increments `total_pages` by one. -/
theorem add_result_total (s : AuditSummary) (r : PageResult) :
    (add_result s r).total_pages = s.total_pages + 1 := by
  simp only [add_result]
  split_ifs <;> rfl

/-- `add_result` increments `pages_with_issues` exactly when the
record's issue list is non-empty. -/
theorem add_result_pwi (s : AuditSummary) (r : PageResult) :
    (add_result s r).pages_with_issues
      = s.pages_with_issues + (if r.issues = [] then 0 else 1) := by
  simp only [add_result]
  split_ifs <;> simp_all

/-- For a truthy latency, `add_result` recomputes the running average
dividing by the incremented `total_pages`. -/
theorem add_result_avg_truthy (s : AuditSummary) (r : PageResult)
    (h : truthyInt r.response_ms = true) :
    (add_result s r).avg_response_time
      = (s.avg_response_time * ((s.total_pages : ℚ) + 1 - 1)
          + ((r.response_ms.getD 0 : ℤ) : ℚ)) / ((s.total_pages : ℚ) + 1) := by
  simp only [add_result, h]
  split_ifs <;> simp_all

/-- Folding `add_result` from a fresh summary over records with truthy
latencies: `total_pages` is the record count, the running average times
the record count is the latency sum, and `pages_with_issues` counts the
records with a non-empty issue list. -/
theorem add_result_fold_aux (rs : List PageResult)
    (h : ∀ r ∈ rs, truthyInt r.response_ms = true) :
    (rs.foldl add_result {}).total_pages = rs.length
    ∧ (rs.foldl add_result {}).avg_response_time * (rs.length : ℚ)
        = (rs.map (fun r => ((r.response_ms.getD 0 : ℤ) : ℚ))).sum
    ∧ (rs.foldl add_result {}).pages_with_issues
        = rs.countP (fun r => !r.issues.isEmpty) := by
  induction rs using List.reverseRecOn with
  | nil => simp
  | append_singleton l x ih =>
    have hl : ∀ r ∈ l, truthyInt r.response_ms = true :=
      fun r hr => h r (List.mem_append_left _ hr)
    have hx : truthyInt x.response_ms = true :=
      h x (List.mem_append_right _ (List.mem_singleton_self x))
    obtain ⟨ht, ha, hp⟩ := ih hl
    rw [List.foldl_append]
    simp only [List.foldl_cons, List.foldl_nil]
    have hne : ((l.length : ℚ) + 1) ≠ 0 := by positivity
    refine ⟨?_, ?_, ?_⟩
    · rw [add_result_total, ht]
      simp
    · rw [add_result_avg_truthy _ _ hx, ht]
      simp only [List.length_append, List.map_append, List.sum_append,
        List.length_singleton, List.map_cons, List.map_nil, List.sum_cons,
        List.sum_nil, add_zero]
      push_cast
      rw [← ha]
      field_simp
    · rw [add_result_pwi, hp, List.countP_append]
      simp only [List.countP_cons, List.countP_nil]
      split_ifs with hi <;> simp_all [List.isEmpty_iff]

/-- C1, amended: for sequences in which every record carries a truthy
(non-null, non-zero) latency, after the additions `avg_response_time`
equals the arithmetic mean of the latencies seen, and
`pages_with_issues` counts exactly the records with a non-empty issue
list.  (Universally quantified over the sequence, so it applies to every
prefix, i.e. after each addition.) -/
theorem add_result_running_mean (rs : List PageResult)
    (h : ∀ r ∈ rs, truthyInt r.response_ms = true) :
    (rs.foldl add_result {}).total_pages = rs.length
    ∧ (rs ≠ [] → (rs.foldl add_result {}).avg_response_time
        = (rs.map (fun r => ((r.response_ms.getD 0 : ℤ) : ℚ))).sum / (rs.length : ℚ))
    ∧ (rs.foldl add_result {}).pages_with_issues
        = rs.countP (fun r => !r.issues.isEmpty) := by
  obtain ⟨ht, ha, hp⟩ := add_result_fold_aux rs h
  refine ⟨ht, fun hne => ?_, hp⟩
  have hlen : (rs.length : ℚ) ≠ 0 := by
    simpa using fun hz => hne (List.length_eq_zero.mp hz)
  rw [eq_div_iff hlen]
  exact ha

/-- C1, counterexample: with latencies 500, `None`, 300 the code's
average is 1300/3 (it divides by `total_pages`, which also counts the
null-latency record), not the arithmetic mean 400 of the non-null
latencies. -/
theorem avg_mixed_latency_counterexample :
    (mixedLatencyRecords.foldl add_result {}).avg_response_time = 1300 / 3
    ∧ (1300 / 3 : ℚ) ≠ (500 + 300) / 2 := by
  constructor
  · simp only [mixedLatencyRecords, List.foldl_cons, List.foldl_nil, add_result,
      truthyInt]
    norm_num
  · norm_num

/-- Witness for C1 (amended) on the 500/300/200 sequence: running means
500, 400, 1000/3 (within 0.01 of 333.33) after each addition, and the
issue count matching. -/
theorem add_result_running_mean_witness :
    (∀ r ∈ latencyRecords, truthyInt r.response_ms = true)
    ∧ ((latencyRecords.take 1).foldl add_result {}).avg_response_time = 500
    ∧ ((latencyRecords.take 2).foldl add_result {}).avg_response_time = 400
    ∧ (latencyRecords.foldl add_result {}).avg_response_time = 1000 / 3
    ∧ |(1000 / 3 : ℚ) - 33333 / 100| ≤ 1 / 100
    ∧ (latencyRecords.foldl add_result {}).avg_response_time
        = (latencyRecords.map (fun r => ((r.response_ms.getD 0 : ℤ) : ℚ))).sum
            / (latencyRecords.length : ℚ)
    ∧ (latencyRecords.foldl add_result {}).pages_with_issues
        = latencyRecords.countP (fun r => !r.issues.isEmpty) :=
  ⟨by decide,
   by simp only [latencyRecords, List.take, List.foldl_cons, List.foldl_nil,
        add_result, truthyInt]; norm_num,
   by simp only [latencyRecords, List.take, List.foldl_cons, List.foldl_nil,
        add_result, truthyInt]; norm_num,
   by simp only [latencyRecords, List.foldl_cons, List.foldl_nil,
        add_result, truthyInt]; norm_num,
   by rw [abs_le]; constructor <;> norm_num,
   (add_result_running_mean latencyRecords (by decide)).2.1 (by decide),
   (add_result_running_mean latencyRecords (by decide)).2.2⟩

/-- Enqueuing never touches the crawled set. -/
theorem add_url_crawled (allowed : String → Bool) (st : CrawlerState) (u : String) :
    (add_url_to_queue allowed st u).crawled = st.crawled := by
  simp only [add_url_to_queue]
  split_ifs <;> rfl

/-- Enqueuing preserves the scheduler invariant: a URL is pushed only
when undiscovered, so it is neither already queued nor crawled. -/
theorem add_url_inv (allowed : String → Bool) (st : CrawlerState) (u : String)
    (h : CrawlInv st) : CrawlInv (add_url_to_queue allowed st u) := by
  obtain ⟨hnd, hqd, hcd, hqc⟩ := h
  simp only [add_url_to_queue]
  split_ifs with h1 h2
  · refine ⟨?_, ?_, ?_, ?_⟩
    · rw [List.nodup_append]
      refine ⟨hnd, List.nodup_singleton u, ?_⟩
      intro a ha hb
      rw [List.mem_singleton.mp hb] at ha
      exact h1.1 (hqd u ha)
    · intro v hv
      rcases List.mem_append.mp hv with hv | hv
      · exact Finset.mem_insert_of_mem (hqd v hv)
      · rw [List.mem_singleton.mp hv]; exact Finset.mem_insert_self _ _
    · intro v hv
      exact Finset.mem_insert_of_mem (hcd v hv)
    · intro v hv
      rcases List.mem_append.mp hv with hv | hv
      · exact hqc v hv
      · rw [List.mem_singleton.mp hv]
        exact fun hc => h1.1 (hcd u hc)
  · exact ⟨hnd, hqd, hcd, hqc⟩
  · exact ⟨hnd, hqd, hcd, hqc⟩

/-- The discovery loop never touches the crawled set. -/
theorem discoverGo_crawled (allowed : String → Bool) (maxPages : ℕ) :
    ∀ (urls : List String) (st : CrawlerState),
      (discoverGo allowed maxPages st urls).crawled = st.crawled := by
  intro urls
  induction urls with
  | nil => intro st; rfl
  | cons u rest ih =>
    intro st
    simp only [discoverGo]
    split_ifs with hlt
    · rw [ih, add_url_crawled]
    · rfl

/-- The discovery loop preserves the scheduler invariant. -/
theorem discoverGo_inv (allowed : String → Bool) (maxPages : ℕ) :
    ∀ (urls : List String) (st : CrawlerState), CrawlInv st →
      CrawlInv (discoverGo allowed maxPages st urls) := by
  intro urls
  induction urls with
  | nil => intro st h; exact h
  | cons u rest ih =>
    intro st h
    simp only [discoverGo]
    split_ifs with hlt
    · exact ih _ (add_url_inv allowed st u h)
    · exact h

/-- `discover_more_urls` never touches the crawled set. -/
theorem discover_more_crawled (allowed : String → Bool)
    (links : String → List String) (maxPages : ℕ) (st : CrawlerState) (url : String) :
    (discover_more_urls allowed links maxPages st url).crawled = st.crawled := by
  simp only [discover_more_urls]
  split_ifs with hge
  · rfl
  · exact discoverGo_crawled allowed maxPages (links url) st

/-- `discover_more_urls` preserves the scheduler invariant. -/
theorem discover_more_inv (allowed : String → Bool)
    (links : String → List String) (maxPages : ℕ) (st : CrawlerState) (url : String)
    (h : CrawlInv st) : CrawlInv (discover_more_urls allowed links maxPages st url) := by
  simp only [discover_more_urls]
  split_ifs with hge
  · exact h
  · exact discoverGo_inv allowed maxPages (links url) st h

/-- Under the scheduler invariant, each yielded URL enlarges the crawled
set by exactly one, and dequeuing requires the crawled set to be under
budget: the crawl loop yields at most `maxPages - |crawled|` URLs, for
any fuel. -/
theorem crawl_urls_length (allowed : String → Bool) (links : String → List String)
    (maxPages : ℕ) : ∀ (fuel : ℕ) (st : CrawlerState), CrawlInv st →
    (crawl_urls allowed links maxPages fuel st).1.length
      ≤ maxPages - st.crawled.card := by
  intro fuel
  induction fuel with
  | zero => intro st h; simp [crawl_urls]
  | succ n ih =>
    intro st h
    simp only [crawl_urls]
    rw [get_next_url]
    split_ifs with hcond
    · simp
    · push_neg at hcond
      obtain ⟨hqne, hlt⟩ := hcond
      cases hq : st.queue with
      | nil => exact absurd hq hqne
      | cons url rest =>
        obtain ⟨hnd, hqd, hcd, hqc⟩ := h
        have hurlq : url ∈ st.queue := by rw [hq]; exact List.mem_cons_self _ _
        have hurlnc : url ∉ st.crawled := hqc url hurlq
        have hrestnd : rest.Nodup := by rw [hq] at hnd; exact hnd.of_cons
        have hurlnr : url ∉ rest := by
          rw [hq] at hnd; exact (List.nodup_cons.mp hnd).1
        have hinv2 : CrawlInv ⟨st.discovered, insert url st.crawled, rest⟩ := by
          refine ⟨hrestnd, ?_, ?_, ?_⟩
          · intro v hv; exact hqd v (by rw [hq]; exact List.mem_cons_of_mem _ hv)
          · intro v hv
            rcases Finset.mem_insert.mp hv with hv | hv
            · rw [hv]; exact hqd url hurlq
            · exact hcd v hv
          · intro v hv hvc
            rcases Finset.mem_insert.mp hvc with hvc | hvc
            · rw [hvc] at hv; exact hurlnr hv
            · exact hqc v (by rw [hq]; exact List.mem_cons_of_mem _ hv) hvc
        have hcard : (insert url st.crawled).card = st.crawled.card + 1 :=
          Finset.card_insert_of_not_mem hurlnc
        set st2 : CrawlerState := ⟨st.discovered, insert url st.crawled, rest⟩ with hst2
        have hstep : ∀ st3 : CrawlerState, CrawlInv st3 → st3.crawled = st2.crawled →
            (crawl_urls allowed links maxPages n st3).1.length + 1
              ≤ maxPages - st.crawled.card := by
          intro st3 h3 hc3
          have := ih st3 h3
          rw [hc3] at this
          simp only [hst2] at this
          rw [hcard] at this
          omega
        dsimp only
        split_ifs with hlt2
        · have h3 := discover_more_inv allowed links maxPages st2 url hinv2
          have hc3 := discover_more_crawled allowed links maxPages st2 url
          have := hstep _ h3 hc3
          simpa using this
        · have := hstep st2 hinv2 rfl
          simpa using this

/-- C5: starting from an empty crawled set under the scheduler
invariant, the crawl loop yields at most `max_pages` URLs, and
`get_next_url` returns nothing whenever the queue is empty or the
crawled set has reached the budget. -/
theorem crawl_budget_cap (allowed : String → Bool) (links : String → List String)
    (maxPages fuel : ℕ) (st : CrawlerState)
    (_hmax : 0 < maxPages) (hinv : CrawlInv st) (hstart : st.crawled = ∅) :
    (crawl_urls allowed links maxPages fuel st).1.length ≤ maxPages
    ∧ (∀ st2 : CrawlerState, (st2.queue = [] ∨ maxPages ≤ st2.crawled.card) →
        get_next_url maxPages st2 = none) := by
  constructor
  · have h := crawl_urls_length allowed links maxPages fuel st hinv
    rw [hstart] at h
    simpa using h
  · intro st2 h2
    rw [get_next_url, if_pos h2]

/-- Witness for C5 with budget 1, one queued URL and a discovery oracle
offering one more link. -/
theorem crawl_budget_cap_witness :
    (0 < 1
      ∧ CrawlInv ⟨{"https://x.com/a"}, ∅, ["https://x.com/a"]⟩
      ∧ ((⟨{"https://x.com/a"}, ∅, ["https://x.com/a"]⟩ : CrawlerState).crawled = ∅))
    ∧ (crawl_urls (fun _ => true) (fun _ => ["https://x.com/b"]) 1 3
        ⟨{"https://x.com/a"}, ∅, ["https://x.com/a"]⟩).1.length ≤ 1 :=
  ⟨⟨Nat.one_pos, ⟨by decide, by decide, by decide, by decide⟩, rfl⟩,
   (crawl_budget_cap (fun _ => true) (fun _ => ["https://x.com/b"]) 1 3
      ⟨{"https://x.com/a"}, ∅, ["https://x.com/a"]⟩ Nat.one_pos
      ⟨by decide, by decide, by decide, by decide⟩ rfl).1⟩
